import Mathlib

/-!
Verification of the ultralight-s3 client core against its specification.
The definitions below are a shallow embedding of the TypeScript source:
pure string-building and response-classification code becomes Lean
functions on `String`, `List Char` and explicit record states; thrown
JavaScript errors become `Except` values; the network is modelled by
passing the HTTP response a call would receive as an explicit argument.
-/

/-! ## Constants from the source -/

def MIN_MAX_REQUEST_SIZE_IN_BYTES : Nat := 5 * 1024 * 1024

def AWS_REQUEST_TYPE : String := "aws4_request"

def S3_SERVICE : String := "s3"

def ERROR_PREFIX : String := "ultralight-s3 Module: "

def ERROR_ACCESS_KEY_REQUIRED : String := ERROR_PREFIX ++ "accessKeyId must be a non-empty string"

def ERROR_SECRET_KEY_REQUIRED : String := ERROR_PREFIX ++ "secretAccessKey must be a non-empty string"

def ERROR_ENDPOINT_REQUIRED : String := ERROR_PREFIX ++ "endpoint must be a non-empty string"

def ERROR_BUCKET_NAME_REQUIRED : String := ERROR_PREFIX ++ "bucketName must be a non-empty string"

def ERROR_KEY_REQUIRED : String := ERROR_PREFIX ++ "key must be a non-empty string"

def ERROR_UPLOAD_ID_REQUIRED : String := ERROR_PREFIX ++ "uploadId must be a non-empty string"

def ERROR_PARTS_REQUIRED : String := ERROR_PREFIX ++ "parts must be a non-empty array"

def ERROR_INVALID_PART : String :=
  ERROR_PREFIX ++ "Each part must have a partNumber (number) and ETag (string)"

def ERROR_DATA_BUFFER_REQUIRED : String := ERROR_PREFIX ++ "data must be a Buffer or string"

/-! ## sanitizeETag

The source strips one leading and one trailing quote marker with the
regular expression `^("|&quot;|&#34;)|("|&quot;|&#34;)$` (global flag).
The three alternatives are mutually exclusive at any position, and the
two anchored alternatives can only fire at the very start and at the
very end, so the replacement is equivalent to stripping at most one
marker from the front and then at most one marker from the back. -/

def qmQuote : List Char := "\"".data

def qmEntity : List Char := "&quot;".data

def qmNumeric : List Char := "&#34;".data

def stripLeadingQuote (l : List Char) : List Char :=
  if qmQuote.isPrefixOf l then l.drop 1
  else if qmEntity.isPrefixOf l then l.drop 6
  else if qmNumeric.isPrefixOf l then l.drop 5
  else l

def stripTrailingQuote (l : List Char) : List Char :=
  if qmQuote.isSuffixOf l then l.take (l.length - 1)
  else if qmEntity.isSuffixOf l then l.take (l.length - 6)
  else if qmNumeric.isSuffixOf l then l.take (l.length - 5)
  else l

def sanitizeETag (etag : String) : String :=
  String.mk (stripTrailingQuote (stripLeadingQuote etag.data))

def startsWithQuoteMarker (s : String) : Bool :=
  qmQuote.isPrefixOf s.data || qmEntity.isPrefixOf s.data || qmNumeric.isPrefixOf s.data

def endsWithQuoteMarker (s : String) : Bool :=
  qmQuote.isSuffixOf s.data || qmEntity.isSuffixOf s.data || qmNumeric.isSuffixOf s.data

/-! ## completeMultipartUpload XML body -/

structure UploadPart where
  partNumber : Nat
  ETag : String
deriving DecidableEq, Repr

/-- Chars of the per-part template before the part number. -/
def entryHead : List Char := "\n          <Part>\n            <PartNumber>".data

/-- Chars of the per-part template between the part number and the ETag. -/
def entryMid : List Char := "</PartNumber>\n            <ETag>".data

/-- Chars of the per-part template after the ETag. -/
def entryTail : List Char := "</ETag>\n          </Part>\n        ".data

/-- The string produced for one part by the template literal in
`_buildCompleteMultipartUploadXml`. -/
def partXml (part : UploadPart) : String :=
  String.mk (entryHead ++ (toString part.partNumber).data ++ entryMid
    ++ part.ETag.data ++ entryTail)

def buildCompleteMultipartUploadXml (parts : List UploadPart) : String :=
  "\n      <CompleteMultipartUpload>\n        "
    ++ String.join (parts.map partXml)
    ++ "\n      </CompleteMultipartUpload>\n    "

/-! ## Extraction of PartNumber entries from a serialized body

`scanPN` walks the generated body and returns, in document order, the
runs of characters that follow each literal `<PartNumber>` tag up to the
next `<`.  It is the observation function used to state in which order
the parts were serialized. -/

def pnPat : List Char := "<PartNumber>".data

def scanPN : List Char → List (List Char)
  | [] => []
  | c :: cs =>
    if pnPat.isPrefixOf (c :: cs) then
      let rest := (c :: cs).drop pnPat.length
      rest.takeWhile (fun ch => ch != '<') :: scanPN (rest.dropWhile (fun ch => ch != '<'))
    else scanPN cs
termination_by l => l.length
decreasing_by
  · have h1 : ((c :: cs).drop pnPat.length).length = (c :: cs).length - pnPat.length :=
      List.length_drop _ _
    have h2 := (List.dropWhile_sublist (l := (c :: cs).drop pnPat.length)
      (p := fun ch => ch != '<')).length_le
    have h3 : pnPat.length = 12 := rfl
    simp only [List.length_cons] at *
    omega
  · simp

/-- PartNumber runs of a string, as strings, in document order. -/
def partNumberRuns (s : String) : List String :=
  (scanPN s.data).map String.mk

/-- Whether comparing `pat` against `t` hits an inequality before either
list runs out; then `pat` can be a prefix of no extension of `t`. -/
def hardMismatch : List Char → List Char → Bool
  | [], _ => false
  | _ :: _, [] => false
  | p :: ps, c :: cs => if p == c then hardMismatch ps cs else true

/-- A character list over which `scanPN` can never start a match,
whatever follows it. -/
def cleanForScan : List Char → Bool
  | [] => true
  | c :: cs => hardMismatch pnPat (c :: cs) && cleanForScan cs

/-! ## JavaScript string trim

The validations in the source call `.trim()` and compare with length 0.
JavaScript trims the WhiteSpace and LineTerminator characters; the ASCII
subset below covers every character the client library can meet in its
own string constants and tests. -/

def jsWhitespace (c : Char) : Bool :=
  c == ' ' || c == '\t' || c == '\n' || c == '\r' || c == '\x0b' || c == '\x0c' || c == ' '

def jsTrim (s : String) : String :=
  String.mk (((s.data.dropWhile jsWhitespace).reverse.dropWhile jsWhitespace).reverse)

/-! ## Percent encoding

`encodeURIComponent` leaves the RFC 2396 unreserved marks
`- _ . ! ~ * ( )` and the apostrophe unescaped; everything else is
percent-encoded byte-wise over UTF-8 with uppercase hex digits.
`uriEscape` then re-encodes the five characters that AWS additionally
requires to be escaped, exactly as the source does with a `.replace`
over the already-encoded string. -/

def hexDigitUpper (n : Nat) : Char :=
  "0123456789ABCDEF".data.getD n '0'

def utf8Bytes (c : Char) : List Nat :=
  let n := c.toNat
  if n < 128 then [n]
  else if n < 2048 then [192 + n / 64, 128 + n % 64]
  else if n < 65536 then [224 + n / 4096, 128 + (n / 64) % 64, 128 + n % 64]
  else [240 + n / 262144, 128 + (n / 4096) % 64, 128 + (n / 64) % 64, 128 + n % 64]

def pctEncodeByte (b : Nat) : List Char :=
  ['%', hexDigitUpper (b / 16), hexDigitUpper (b % 16)]

def uriUnreserved (c : Char) : Bool :=
  c.isAlpha || c.isDigit || c == '-' || c == '_' || c == '.' || c == '!' || c == '~'
    || c == '*' || c == (Char.ofNat 39) || c == '(' || c == ')'

def encodeURIComponent (s : String) : String :=
  String.mk ((s.data.map (fun c =>
    if uriUnreserved c then [c] else ((utf8Bytes c).map pctEncodeByte).flatten)).flatten)

def strictEscapeTargets : List Char := ['!', Char.ofNat 39, '(', ')', '*']

/-- The `encodeAsHex` arrow function from the source. -/
def encodeAsHex (c : Char) : String :=
  String.mk ('%' :: (Nat.toDigits 16 c.toNat).map Char.toUpper)

def uriEscape (uriStr : String) : String :=
  String.mk (((encodeURIComponent uriStr).data.map (fun c =>
    if strictEscapeTargets.contains c then (encodeAsHex c).data else [c])).flatten)

/-! ## Canonical query string

`_buildCanonicalQueryString` sorts `Object.keys(queryParams)` with the
default JavaScript comparator (code-unit order, modelled below on the
char values) and renders each pair with `encodeURIComponent`.  A query
object is modelled as an association list with distinct keys. -/

def jsLeL : List Char → List Char → Bool
  | [], _ => true
  | _ :: _, [] => false
  | a :: as, b :: bs =>
    if a.toNat < b.toNat then true
    else if b.toNat < a.toNat then false
    else jsLeL as bs

def jsStrLe (a b : String) : Bool := jsLeL a.data b.data

def sortStrings (l : List String) : List String :=
  List.insertionSort (fun a b => jsStrLe a b = true) l

def assocGet : List (String × String) → String → String
  | [], _ => ""
  | (k, v) :: t, key => if k = key then v else assocGet t key

def buildCanonicalQueryString (queryParams : List (String × String)) : String :=
  if queryParams.length < 1 then ""
  else
    String.intercalate "&"
      ((sortStrings (queryParams.map Prod.fst)).map (fun key =>
        encodeURIComponent key ++ "=" ++ encodeURIComponent (assocGet queryParams key)))

/-! ## Signing key derivation

The hash and HMAC primitives are external collaborators; they enter the
embedding as function parameters.  `getSignatureKey` mirrors
`_getSignatureKey` and `calculateSignature` mirrors
`_calculateSignature` (which slices the first 8 characters of the
timestamp as the date stamp). -/

def getSignatureKey (hmac : String → String → String)
    (secretAccessKey region : String) (dateStamp : String) : String :=
  let kDate := hmac ("AWS4" ++ secretAccessKey) dateStamp
  let kRegion := hmac kDate region
  let kService := hmac kRegion S3_SERVICE
  hmac kService AWS_REQUEST_TYPE

def calculateSignature (hmacHex hmac : String → String → String)
    (secretAccessKey region : String) (datetime stringToSign : String) : String :=
  hmacHex (getSignatureKey hmac secretAccessKey region (datetime.take 8)) stringToSign

/-! ## Client configuration state and setters -/

inductive S3Err where
  | typeError (msg : String)
  | error (msg : String)
deriving DecidableEq, Repr

structure S3Config where
  accessKeyId : String
  secretAccessKey : String
  endpoint : String
  bucketName : String
  region : Option String
  maxRequestSizeInBytes : Option Nat
  requestAbortTimeout : Option Nat
deriving DecidableEq, Repr

structure S3State where
  accessKeyId : String
  secretAccessKey : String
  endpoint : String
  bucketName : String
  region : String
  maxRequestSizeInBytes : Nat
  requestAbortTimeout : Option Nat
deriving DecidableEq, Repr

def validateConstructorParams (accessKeyId secretAccessKey endpoint bucketName : String) :
    Except S3Err Unit :=
  if (jsTrim accessKeyId).length = 0 then Except.error (S3Err.typeError ERROR_ACCESS_KEY_REQUIRED)
  else if (jsTrim secretAccessKey).length = 0 then
    Except.error (S3Err.typeError ERROR_SECRET_KEY_REQUIRED)
  else if (jsTrim endpoint).length = 0 then Except.error (S3Err.typeError ERROR_ENDPOINT_REQUIRED)
  else if (jsTrim bucketName).length = 0 then
    Except.error (S3Err.typeError ERROR_BUCKET_NAME_REQUIRED)
  else Except.ok ()

/-- The constructor.  Destructuring defaults apply only when the field is
absent (`undefined`), so an explicit value is kept even when falsy. -/
def s3New (config : S3Config) : Except S3Err S3State :=
  match validateConstructorParams config.accessKeyId config.secretAccessKey
    config.endpoint config.bucketName with
  | Except.error e => Except.error e
  | Except.ok _ => Except.ok
    { accessKeyId := config.accessKeyId
      secretAccessKey := config.secretAccessKey
      endpoint := config.endpoint
      bucketName := config.bucketName
      region := config.region.getD "auto"
      maxRequestSizeInBytes := config.maxRequestSizeInBytes.getD MIN_MAX_REQUEST_SIZE_IN_BYTES
      requestAbortTimeout := config.requestAbortTimeout }

def setBucketName (s : S3State) (bucketName : String) : S3State :=
  { s with bucketName := bucketName }

def setRegion (s : S3State) (region : String) : S3State :=
  { s with region := region }

def setEndpoint (s : S3State) (endpoint : String) : S3State :=
  { s with endpoint := endpoint }

def setMaxRequestSizeInBytes (s : S3State) (maxRequestSizeInBytes : Nat) : S3State :=
  { s with maxRequestSizeInBytes := maxRequestSizeInBytes }

/-- JavaScript `a || b` for strings: the empty string is falsy. -/
def jsOrStr : Option String → String → String
  | none, d => d
  | some v, d => if v = "" then d else v

/-- JavaScript `a || b` for numbers: 0 is falsy. -/
def jsOrNat : Option Nat → Nat → Nat
  | none, d => d
  | some v, d => if v = 0 then d else v

/-- `setProps` re-validates, but passes `props.bucketName` in the
`endpoint` position and `props.endpoint` in the `bucketName` position
(both are still checked for non-emptiness). -/
def setProps (_s : S3State) (props : S3Config) : Except S3Err S3State :=
  match validateConstructorParams props.accessKeyId props.secretAccessKey
    props.bucketName props.endpoint with
  | Except.error e => Except.error e
  | Except.ok _ => Except.ok
    { accessKeyId := props.accessKeyId
      secretAccessKey := props.secretAccessKey
      region := jsOrStr props.region "auto"
      bucketName := props.bucketName
      endpoint := props.endpoint
      maxRequestSizeInBytes := jsOrNat props.maxRequestSizeInBytes MIN_MAX_REQUEST_SIZE_IN_BYTES
      requestAbortTimeout := props.requestAbortTimeout }

/-- The configuration invariant claimed by the specification. -/
def configInvariant (s : S3State) : Prop :=
  s.accessKeyId ≠ "" ∧ s.secretAccessKey ≠ "" ∧ s.endpoint ≠ "" ∧ s.bucketName ≠ ""
    ∧ MIN_MAX_REQUEST_SIZE_IN_BYTES ≤ s.maxRequestSizeInBytes

instance (s : S3State) : Decidable (configInvariant s) := by
  unfold configInvariant; infer_instance

/-! ## Transport and error classification

A call that reaches the network is given the `HttpResponse` the
transport would deliver.  Header names are stored lowercased, matching
the case-insensitive lookup of the fetch `Headers` API. -/

structure HttpResponse where
  status : Nat
  statusText : String
  headers : List (String × String)
  bodyText : String
deriving DecidableEq, Repr

def respOk (r : HttpResponse) : Bool := 200 ≤ r.status && r.status ≤ 299

def headerGet : List (String × String) → String → Option String
  | [], _ => none
  | (k, v) :: t, name => if k = name then some v else headerGet t name

/-- The message of the error thrown by `_handleErrorResponse`. -/
def handleErrorMessage (r : HttpResponse) : String :=
  ERROR_PREFIX ++ "Request failed with status " ++ toString r.status ++ ": "
    ++ (headerGet r.headers "x-amz-error-code").getD "Unknown" ++ " - "
    ++ (headerGet r.headers "x-amz-error-message").getD r.statusText
    ++ ", err body: " ++ r.bodyText

/-- `_sendRequest` after the fetch resolved to `r`. -/
def sendRequest (r : HttpResponse) (toleratedStatusCodes : List Nat) :
    Except S3Err HttpResponse :=
  if !respOk r && !toleratedStatusCodes.contains r.status then
    Except.error (S3Err.error (handleErrorMessage r))
  else Except.ok r

def s3ErrText : S3Err → String
  | S3Err.typeError m => m
  | S3Err.error m => m

/-- Response classification of `get` after signing. -/
def getHandle (r : HttpResponse) : Except S3Err (Option String) :=
  match sendRequest r [200, 404, 412, 304] with
  | Except.error e => Except.error e
  | Except.ok res =>
    if res.status = 404 || res.status = 412 || res.status = 304 then Except.ok none
    else if !respOk res then
      Except.error (S3Err.error ("Failed to get object. Status: " ++ toString res.status))
    else Except.ok (some res.bodyText)

/-- Response classification of `fileExists`.  The result carries the
three-valued existence: `some true`, `some false`, or `none` for null.
In the non-200 2xx corner the source fires `_handleErrorResponse`
without awaiting it and then executes `return false`, so that path
resolves to `false` rather than rejecting. -/
def fileExistsHandle (r : HttpResponse) : Except S3Err (Option Bool) :=
  let inner : Except S3Err (Option Bool) :=
    match sendRequest r [200, 404, 412, 304] with
    | Except.error e => Except.error e
    | Except.ok res =>
      if res.status = 404 then Except.ok (some false)
      else if res.status = 412 || res.status = 304 then Except.ok none
      else if respOk res && res.status = 200 then Except.ok (some true)
      else Except.ok (some false)
  match inner with
  | Except.error e =>
    Except.error (S3Err.error (ERROR_PREFIX ++ "Failed to check if file exists: " ++ s3ErrText e))
  | Except.ok v => Except.ok v

/-- Response classification of `getObjectWithETag`. -/
def getObjectWithETagHandle (r : HttpResponse) : Except S3Err (Option String × Option String) :=
  match sendRequest r [200, 404, 412, 304] with
  | Except.error e => Except.error e
  | Except.ok res =>
    if res.status = 404 || res.status = 412 || res.status = 304 then Except.ok (none, none)
    else if !respOk res then
      Except.error (S3Err.error ("Failed to get object. Status: " ++ toString res.status))
    else
      match headerGet res.headers "etag" with
      | none => Except.error (S3Err.error "ETag not found in response headers")
      | some etag => Except.ok (some (sanitizeETag etag), some res.bodyText)

/-- Response classification of `getEtag` (404 is not tolerated here). -/
def getEtagHandle (r : HttpResponse) : Except S3Err (Option String) :=
  match sendRequest r [200, 412, 304] with
  | Except.error e => Except.error e
  | Except.ok res =>
    if res.status = 412 || res.status = 304 then Except.ok none
    else
      match headerGet res.headers "etag" with
      | none => Except.error (S3Err.error "ETag not found in response headers")
      | some etag => Except.ok (some (sanitizeETag etag))

/-- Response handling of `delete`. -/
def deleteHandle (r : HttpResponse) : Except S3Err Bool :=
  match sendRequest r [] with
  | Except.error e => Except.error e
  | Except.ok res => Except.ok (res.status = 204 || res.status = 200)

/-- Response handling of `getContentLength`; `parseInt` of a decimal
header value is modelled with `String.toNat?`. -/
def getContentLengthHandle (r : HttpResponse) : Except S3Err Nat :=
  match sendRequest r [] with
  | Except.error e => Except.error e
  | Except.ok res =>
    match headerGet res.headers "content-length" with
    | some v => Except.ok (v.toNat?.getD 0)
    | none => Except.ok 0

/-! ## XML decoder

`_parseXml` extracts top-level tag matches with one regular expression
and folds them into a JSON-like object.  The match extraction is
modelled by `findMatchesF` (fuelled, since the scan is not structurally
recursive), and the body of the `while` loop by `parseStep`. -/

inductive JVal where
  | str (s : String)
  | bool (b : Bool)
  | obj (fields : List (String × JVal))
  | arr (items : List JVal)

def JVal.isStr : JVal → Bool
  | JVal.str _ => true
  | _ => false

/-- One global string replacement, leftmost-first and non-overlapping,
as JavaScript `String.replace` with a global literal pattern. -/
def replaceAllF : Nat → List Char → List Char → List Char → List Char
  | 0, _, _, l => l
  | _ + 1, _, _, [] => []
  | f + 1, pat, rep, c :: cs =>
    if pat.isPrefixOf (c :: cs) then rep ++ replaceAllF f pat rep ((c :: cs).drop pat.length)
    else c :: replaceAllF f pat rep cs

def replaceAllStr (s pat rep : String) : String :=
  String.mk (replaceAllF s.data.length pat.data rep.data s.data)

def unescapeXml (value : String) : String :=
  replaceAllStr
    (replaceAllStr
      (replaceAllStr
        (replaceAllStr
          (replaceAllStr value "&quot;" "\"")
          "&apos;" (String.mk [Char.ofNat 39]))
        "&lt;" "<")
      "&gt;" ">")
    "&amp;" "&"

def jsonLookup : List (String × JVal) → String → Option JVal
  | [], _ => none
  | (k, v) :: t, key => if k = key then some v else jsonLookup t key

/-- JavaScript object assignment: overwrite in place, else append. -/
def setKey : List (String × JVal) → String → JVal → List (String × JVal)
  | [], key, v => [(key, v)]
  | (k, w) :: t, key, v => if k = key then (key, v) :: t else (k, w) :: setKey t key v

/-- The fixed allow-list of tags that are always decoded as arrays. -/
def expectArray (key : String) : Bool := key == "contents"

/-- The body of the `while ((match = re.exec(str)))` loop, for one match
whose value has already been decoded recursively. -/
def parseStep (json : List (String × JVal)) (m : String × JVal) : List (String × JVal) :=
  match m.2 with
  | JVal.str s => setKey json m.1 (JVal.str (sanitizeETag (unescapeXml s)))
  | v =>
    match jsonLookup json m.1 with
    | some (JVal.arr a) => setKey json m.1 (JVal.arr (a ++ [v]))
    | some w => setKey json m.1 (JVal.arr [w, v])
    | none => setKey json m.1 (if expectArray m.1 then JVal.arr [v] else v)

def processMatches (ms : List (String × JVal)) : List (String × JVal) :=
  ms.foldl parseStep []

def isWordChar (c : Char) : Bool := c.isAlpha || c.isDigit || c == '_'

def isNameChar (c : Char) : Bool := isWordChar c || c == '-'

/-- Characters before the first position where `<` is immediately
followed by the first letter of the open tag: the farthest the content
group of the regular expression can reach. -/
def contentWindow (pfx : Char) : List Char → List Char
  | [] => []
  | [c] => [c]
  | c1 :: c2 :: rest =>
    if c1 == '<' && c2 == pfx then []
    else c1 :: contentWindow pfx (c2 :: rest)

/-- Largest index `k ≤ start` at which `closeTag` occurs in `s`
(the greedy content group backtracks to the last closing tag). -/
def findClose (closeTag : List Char) (s : List Char) : Nat → Option Nat
  | 0 => if closeTag.isPrefixOf s then some 0 else none
  | k + 1 => if closeTag.isPrefixOf (s.drop (k + 1)) then some (k + 1) else findClose closeTag s k

/-- Top-level tag matches of the regular expression
`<(\w)([-\w]+)(?:\/|[^>]*>((?:(?!<\1)[\s\S])*)<\/\1\2)>`, in scan
order; `none` content encodes a self-closing match (group 3 absent). -/
def findMatchesF : Nat → List Char → List (String × Option String)
  | 0, _ => []
  | _ + 1, [] => []
  | f + 1, c :: cs =>
    if c == '<' then
      match cs with
      | [] => []
      | c1 :: cs1 =>
        if isWordChar c1 then
          let restName := cs1.takeWhile isNameChar
          let afterName := cs1.dropWhile isNameChar
          if restName.isEmpty then findMatchesF f cs
          else
            let name := c1 :: restName
            match afterName with
            | '/' :: '>' :: rest2 => (String.mk name, none) :: findMatchesF f rest2
            | _ =>
              if (afterName.takeWhile (fun x => x != '>')).length = afterName.length then
                findMatchesF f cs
              else
                let contentArea := (afterName.dropWhile (fun x => x != '>')).drop 1
                let w := contentWindow c1 contentArea
                let closeTag := '<' :: '/' :: name ++ ['>']
                match findClose closeTag contentArea w.length with
                | some k =>
                  (String.mk name, some (String.mk (contentArea.take k)))
                    :: findMatchesF f (contentArea.drop (k + closeTag.length))
                | none => findMatchesF f cs
        else findMatchesF f cs
    else findMatchesF f cs

/-- The tag key as stored: the first letter lowercased, the rest kept. -/
def fullKeyOf (name : String) : String :=
  match name.data with
  | [] => name
  | c :: rest => String.mk (c.toLower :: rest)

def parseXmlF : Nat → String → JVal
  | 0, s => JVal.str s
  | f + 1, s =>
    let ms := findMatchesF (s.data.length + 1) s.data
    if ms.isEmpty then JVal.str (unescapeXml s)
    else
      JVal.obj ((ms.map (fun m =>
        (fullKeyOf m.1,
          match m.2 with
          | none => JVal.bool true
          | some content => parseXmlF f content))).foldl parseStep [])

def parseXml (s : String) : JVal := parseXmlF (s.length + 1) s

/-- Navigation helper: length of `listBucketResult.contents` when it is
an array. -/
def contentsArrayLength (v : JVal) : Option Nat :=
  match v with
  | JVal.obj j =>
    match jsonLookup j "listBucketResult" with
    | some (JVal.obj j2) =>
      match jsonLookup j2 "contents" with
      | some (JVal.arr a) => some a.length
      | _ => none
    | _ => none
  | _ => none

/-- The `parsedResponse.error.message` probe used by the multipart
operations before interpreting a response body. -/
def xmlErrorMessage (v : JVal) : Option JVal :=
  match v with
  | JVal.obj j =>
    match jsonLookup j "error" with
    | some (JVal.obj je) => jsonLookup je "message"
    | _ => none
  | _ => none

/-- JavaScript `String(value)` on a decoded XML value. -/
def jvalToString : JVal → String
  | JVal.str s => s
  | JVal.bool b => if b then "true" else "false"
  | JVal.obj _ => "[object Object]"
  | JVal.arr _ => ""

def jvalField (v : JVal) (key : String) : Option JVal :=
  match v with
  | JVal.obj j => jsonLookup j key
  | _ => none

/-! ## Per-call validation and its ordering against the network

Every public operation validates its own arguments first; only then is
the request signed and sent.  Each operation is modelled as a function
returning its result together with the list of effects it performed, in
order (`signed` for `_sign`, `net` for `_sendRequest`). -/

inductive Effect where
  | signed
  | net
deriving DecidableEq, Repr

def netEffects : List Effect := [Effect.signed, Effect.net]

def checkKey (key : String) : Except S3Err Unit :=
  if (jsTrim key).length = 0 then Except.error (S3Err.typeError ERROR_KEY_REQUIRED)
  else Except.ok ()

def checkUploadId (uploadId : String) : Except S3Err Unit :=
  if (jsTrim uploadId).length = 0 then Except.error (S3Err.typeError ERROR_UPLOAD_ID_REQUIRED)
  else Except.ok ()

/-- A dynamically-typed argument field, for the per-part validation of
`completeMultipartUpload`. -/
inductive JsVal where
  | num (n : Int)
  | str (s : String)
  | other
deriving DecidableEq, Repr

structure PartArg where
  partNumber : JsVal
  ETag : JsVal
deriving DecidableEq, Repr

def isValidPart (p : PartArg) : Bool :=
  (match p.partNumber with | JsVal.num _ => true | _ => false)
    && (match p.ETag with | JsVal.str _ => true | _ => false)

def toUploadPart (p : PartArg) : UploadPart :=
  { partNumber := (match p.partNumber with | JsVal.num n => n.toNat | _ => 0)
    ETag := (match p.ETag with | JsVal.str s => s | _ => "") }

def getRun (key : String) (r : HttpResponse) :
    Except S3Err (Option String) × List Effect :=
  match checkKey key with
  | Except.error e => (Except.error e, [])
  | Except.ok _ => (getHandle r, netEffects)

def getObjectWithETagRun (key : String) (r : HttpResponse) :
    Except S3Err (Option String × Option String) × List Effect :=
  match checkKey key with
  | Except.error e => (Except.error e, [])
  | Except.ok _ => (getObjectWithETagHandle r, netEffects)

def getEtagRun (key : String) (r : HttpResponse) :
    Except S3Err (Option String) × List Effect :=
  match checkKey key with
  | Except.error e => (Except.error e, [])
  | Except.ok _ => (getEtagHandle r, netEffects)

def getResponseRun (key : String) (r : HttpResponse) :
    Except S3Err HttpResponse × List Effect :=
  match checkKey key with
  | Except.error e => (Except.error e, [])
  | Except.ok _ => (sendRequest r [], netEffects)

def putRun (key : String) (_data : String) (r : HttpResponse) :
    Except S3Err HttpResponse × List Effect :=
  match checkKey key with
  | Except.error e => (Except.error e, [])
  | Except.ok _ => (sendRequest r [], netEffects)

def deleteRun (key : String) (r : HttpResponse) :
    Except S3Err Bool × List Effect :=
  match checkKey key with
  | Except.error e => (Except.error e, [])
  | Except.ok _ => (deleteHandle r, netEffects)

def fileExistsRun (key : String) (r : HttpResponse) :
    Except S3Err (Option Bool) × List Effect :=
  match checkKey key with
  | Except.error e => (Except.error e, [])
  | Except.ok _ => (fileExistsHandle r, netEffects)

def getContentLengthRun (key : String) (r : HttpResponse) :
    Except S3Err Nat × List Effect :=
  match checkKey key with
  | Except.error e => (Except.error e, [])
  | Except.ok _ => (getContentLengthHandle r, netEffects)

/-- Response interpretation of `getMultipartUploadId`. -/
def getMultipartUploadIdHandle (r : HttpResponse) : Except S3Err String :=
  match sendRequest r [] with
  | Except.error e => Except.error e
  | Except.ok res =>
    let parsed := parseXml res.bodyText
    match xmlErrorMessage parsed with
    | some m =>
      Except.error (S3Err.error
        (ERROR_PREFIX ++ "Failed to abort multipart upload: " ++ jvalToString m))
    | none =>
      match parsed with
      | JVal.obj j =>
        (match jsonLookup j "initiateMultipartUploadResult" with
         | some iru =>
           (match jvalField iru "uploadId" with
            | some (JVal.str uploadId) => Except.ok uploadId
            | some v => Except.ok (jvalToString v)
            | none =>
              Except.error (S3Err.error
                (ERROR_PREFIX
                  ++ "Failed to create multipart upload: Missing upload ID in response")))
         | none =>
           Except.error (S3Err.error
             (ERROR_PREFIX ++ "Failed to create multipart upload: Missing upload ID in response")))
      | _ =>
        Except.error (S3Err.error
          (ERROR_PREFIX ++ "Failed to create multipart upload: Unexpected response format"))

def getMultipartUploadIdRun (key : String) (_fileType : String) (r : HttpResponse) :
    Except S3Err String × List Effect :=
  match checkKey key with
  | Except.error e => (Except.error e, [])
  | Except.ok _ => (getMultipartUploadIdHandle r, netEffects)

def uploadPartRun (key : String) (_data : String) (uploadId : String) (partNumber : Int)
    (r : HttpResponse) : Except S3Err UploadPart × List Effect :=
  match checkKey key with
  | Except.error e => (Except.error e, [])
  | Except.ok _ =>
    match checkUploadId uploadId with
    | Except.error e => (Except.error e, [])
    | Except.ok _ =>
      if !(0 < partNumber) then
        (Except.error (S3Err.typeError (ERROR_PREFIX ++ "partNumber must be a positive integer")),
          [])
      else
        match sendRequest r [] with
        | Except.error e => (Except.error e, netEffects)
        | Except.ok res =>
          (Except.ok
            { partNumber := partNumber.toNat
              ETag := sanitizeETag ((headerGet res.headers "etag").getD "") },
            netEffects)

def completeMultipartUploadRun (key uploadId : String) (parts : List PartArg)
    (r : HttpResponse) : Except S3Err (Option JVal) × List Effect :=
  match checkKey key with
  | Except.error e => (Except.error e, [])
  | Except.ok _ =>
    match checkUploadId uploadId with
    | Except.error e => (Except.error e, [])
    | Except.ok _ =>
      if parts.length = 0 then (Except.error (S3Err.typeError ERROR_PARTS_REQUIRED), [])
      else if !(parts.all isValidPart) then
        (Except.error (S3Err.typeError ERROR_INVALID_PART), [])
      else
        let _xmlBody := buildCompleteMultipartUploadXml (parts.map toUploadPart)
        match sendRequest r [] with
        | Except.error e => (Except.error e, netEffects)
        | Except.ok res =>
          let parsed := parseXml res.bodyText
          match xmlErrorMessage parsed with
          | some m =>
            (Except.error (S3Err.error
              (ERROR_PREFIX ++ "Failed to abort multipart upload: " ++ jvalToString m)),
              netEffects)
          | none => (Except.ok (jvalField parsed "completeMultipartUploadResult"), netEffects)

def abortMultipartUploadRun (key uploadId : String) (r : HttpResponse) :
    Except S3Err JVal × List Effect :=
  match checkKey key with
  | Except.error e => (Except.error e, [])
  | Except.ok _ =>
    match checkUploadId uploadId with
    | Except.error e => (Except.error e, [])
    | Except.ok _ =>
      let inner : Except S3Err JVal :=
        match sendRequest r [] with
        | Except.error e => Except.error e
        | Except.ok res =>
          if respOk res then
            let parsed := parseXml res.bodyText
            match xmlErrorMessage parsed with
            | some m =>
              Except.error (S3Err.error
                (ERROR_PREFIX ++ "Failed to abort multipart upload: " ++ jvalToString m))
            | none => Except.ok parsed
          else
            Except.error (S3Err.error
              (ERROR_PREFIX ++ "Abort request failed with status " ++ toString res.status))
      match inner with
      | Except.error e =>
        (Except.error (S3Err.error
          (ERROR_PREFIX ++ "Failed to abort multipart upload for key " ++ key ++ ": "
            ++ s3ErrText e)),
          netEffects)
      | Except.ok v => (Except.ok v, netEffects)

/-! ## Helper lemmas -/

theorem strMk_data (s : String) : String.mk s.data = s := by
  cases s
  rfl

theorem strData_append (a b : String) : (a ++ b).data = a.data ++ b.data := by
  cases a
  cases b
  rfl

theorem jsTrim_len_ne_zero (s : String) (h : (jsTrim s).length ≠ 0) : s.length ≠ 0 := by
  intro h0
  apply h
  have hdata : s.data = [] := List.length_eq_zero.mp h0
  have hs : s = "" := by
    cases s
    simp_all
  rw [hs]
  rfl

/-! ## C7: the SigV4 signing-key chain -/

/-- C7: for every secret key, region and date stamp, the signing key is
the 4-stage HMAC chain
`HMAC(HMAC(HMAC(HMAC("AWS4" ++ secret, dateStamp), region), "s3"), "aws4_request")`,
each stage keying the next, and `_calculateSignature` signs the
string-to-sign with that key derived from the first 8 characters of the
timestamp. -/
theorem c7_signature_key_chain (hmac hmacHex : String → String → String)
    (secretAccessKey region dateStamp datetime stringToSign : String) :
    getSignatureKey hmac secretAccessKey region dateStamp
      = hmac (hmac (hmac (hmac ("AWS4" ++ secretAccessKey) dateStamp) region) "s3")
          "aws4_request"
    ∧ calculateSignature hmacHex hmac secretAccessKey region datetime stringToSign
      = hmacHex (getSignatureKey hmac secretAccessKey region (datetime.take 8)) stringToSign :=
  ⟨rfl, rfl⟩

/-! ## C5: transport error classification -/

/-- C5: `_sendRequest` throws exactly when the status is non-2xx and not
tolerated, and the error message carries the status, the
`x-amz-error-code` header (defaulting to Unknown), the
`x-amz-error-message` header (defaulting to the status text) and the
full body; otherwise the response is returned. -/
theorem c5_sendRequest_error_iff (r : HttpResponse) (toleratedStatusCodes : List Nat) :
    (¬(200 ≤ r.status ∧ r.status ≤ 299) → r.status ∉ toleratedStatusCodes →
      sendRequest r toleratedStatusCodes = Except.error (S3Err.error (handleErrorMessage r))
      ∧ handleErrorMessage r
        = ERROR_PREFIX ++ "Request failed with status " ++ toString r.status ++ ": "
          ++ (headerGet r.headers "x-amz-error-code").getD "Unknown" ++ " - "
          ++ (headerGet r.headers "x-amz-error-message").getD r.statusText
          ++ ", err body: " ++ r.bodyText)
    ∧ ((200 ≤ r.status ∧ r.status ≤ 299) ∨ r.status ∈ toleratedStatusCodes →
      sendRequest r toleratedStatusCodes = Except.ok r) := by
  constructor
  · intro h1 h2
    have hok : respOk r = false := by
      simp only [respOk, Bool.and_eq_false_iff, decide_eq_false_iff_not]
      omega
    have hmem : toleratedStatusCodes.contains r.status = false := by
      simpa using h2
    refine ⟨?_, rfl⟩
    unfold sendRequest
    rw [hok, hmem]
    rfl
  · intro h
    rcases h with h | h
    · have hok : respOk r = true := by
        simp only [respOk, Bool.and_eq_true, decide_eq_true_eq]
        omega
      unfold sendRequest
      rw [hok]
      rfl
    · have hmem : toleratedStatusCodes.contains r.status = true := by
        simpa using h
      unfold sendRequest
      rw [hmem]
      simp

/-- Witness for C5 at status 500 with no tolerated codes, and at a
tolerated 404. -/
theorem c5_sendRequest_error_iff_witness :
    sendRequest (HttpResponse.mk 500 "Internal Server Error" [] "boom") []
      = Except.error (S3Err.error
          (handleErrorMessage (HttpResponse.mk 500 "Internal Server Error" [] "boom")))
    ∧ sendRequest (HttpResponse.mk 404 "Not Found" [] "") [404]
      = Except.ok (HttpResponse.mk 404 "Not Found" [] "") :=
  ⟨((c5_sendRequest_error_iff (HttpResponse.mk 500 "Internal Server Error" [] "boom") []).1
      (by decide) (by decide)).1,
    (c5_sendRequest_error_iff (HttpResponse.mk 404 "Not Found" [] "") [404]).2
      (Or.inr (by decide))⟩

/-! ## C4: tolerated statuses of get and fileExists -/

/-- C4: `get` yields the body on 200 and null on 404, 412 and 304
without throwing; `fileExists` maps 200 to true, 404 to false and
412 or 304 to null without throwing. -/
theorem c4_get_fileExists_tolerated (r : HttpResponse) :
    (r.status = 200 → getHandle r = Except.ok (some r.bodyText)
      ∧ fileExistsHandle r = Except.ok (some true))
    ∧ (r.status = 404 → getHandle r = Except.ok none
      ∧ fileExistsHandle r = Except.ok (some false))
    ∧ (r.status = 412 ∨ r.status = 304 → getHandle r = Except.ok none
      ∧ fileExistsHandle r = Except.ok none) := by
  refine ⟨?_, ?_, ?_⟩
  · intro h
    constructor
    · simp [getHandle, sendRequest, respOk, h]
    · simp [fileExistsHandle, sendRequest, respOk, h]
  · intro h
    constructor
    · simp [getHandle, sendRequest, respOk, h]
    · simp [fileExistsHandle, sendRequest, respOk, h]
  · intro h
    rcases h with h | h
    · exact ⟨by simp [getHandle, sendRequest, respOk, h],
        by simp [fileExistsHandle, sendRequest, respOk, h]⟩
    · exact ⟨by simp [getHandle, sendRequest, respOk, h],
        by simp [fileExistsHandle, sendRequest, respOk, h]⟩

/-- Witness for C4 at concrete 200 and 404 responses. -/
theorem c4_get_fileExists_tolerated_witness :
    getHandle (HttpResponse.mk 200 "OK" [] "hello") = Except.ok (some "hello")
    ∧ fileExistsHandle (HttpResponse.mk 404 "Not Found" [] "") = Except.ok (some false)
    ∧ getHandle (HttpResponse.mk 412 "Precondition Failed" [] "") = Except.ok none :=
  ⟨((c4_get_fileExists_tolerated (HttpResponse.mk 200 "OK" [] "hello")).1 rfl).1,
    ((c4_get_fileExists_tolerated (HttpResponse.mk 404 "Not Found" [] "")).2.1 rfl).2,
    ((c4_get_fileExists_tolerated
      (HttpResponse.mk 412 "Precondition Failed" [] "")).2.2 (Or.inl rfl)).1⟩

/-! ## C6: validation precedes signing and network effects -/

/-- C6: every key-taking operation rejects an empty-after-trim key with
the key TypeError and an empty effect trace (no signing, no network);
`uploadPart` likewise rejects a non-positive part number, and
`completeMultipartUpload` rejects an empty parts list and a part whose
partNumber is not a number or whose ETag is not a string, always with no
effects. -/
theorem c6_validation_before_network :
    (∀ key r, (jsTrim key).length = 0 →
      getRun key r = (Except.error (S3Err.typeError ERROR_KEY_REQUIRED), []))
    ∧ (∀ key r, (jsTrim key).length = 0 →
      getObjectWithETagRun key r = (Except.error (S3Err.typeError ERROR_KEY_REQUIRED), []))
    ∧ (∀ key r, (jsTrim key).length = 0 →
      getEtagRun key r = (Except.error (S3Err.typeError ERROR_KEY_REQUIRED), []))
    ∧ (∀ key r, (jsTrim key).length = 0 →
      getResponseRun key r = (Except.error (S3Err.typeError ERROR_KEY_REQUIRED), []))
    ∧ (∀ key data r, (jsTrim key).length = 0 →
      putRun key data r = (Except.error (S3Err.typeError ERROR_KEY_REQUIRED), []))
    ∧ (∀ key r, (jsTrim key).length = 0 →
      deleteRun key r = (Except.error (S3Err.typeError ERROR_KEY_REQUIRED), []))
    ∧ (∀ key r, (jsTrim key).length = 0 →
      fileExistsRun key r = (Except.error (S3Err.typeError ERROR_KEY_REQUIRED), []))
    ∧ (∀ key r, (jsTrim key).length = 0 →
      getContentLengthRun key r = (Except.error (S3Err.typeError ERROR_KEY_REQUIRED), []))
    ∧ (∀ key fileType r, (jsTrim key).length = 0 →
      getMultipartUploadIdRun key fileType r
        = (Except.error (S3Err.typeError ERROR_KEY_REQUIRED), []))
    ∧ (∀ key data uploadId partNumber r, (jsTrim key).length = 0 →
      uploadPartRun key data uploadId partNumber r
        = (Except.error (S3Err.typeError ERROR_KEY_REQUIRED), []))
    ∧ (∀ key uploadId parts r, (jsTrim key).length = 0 →
      completeMultipartUploadRun key uploadId parts r
        = (Except.error (S3Err.typeError ERROR_KEY_REQUIRED), []))
    ∧ (∀ key uploadId r, (jsTrim key).length = 0 →
      abortMultipartUploadRun key uploadId r
        = (Except.error (S3Err.typeError ERROR_KEY_REQUIRED), []))
    ∧ (∀ key data uploadId partNumber r, (jsTrim key).length ≠ 0 →
      (jsTrim uploadId).length ≠ 0 → partNumber ≤ 0 →
      uploadPartRun key data uploadId partNumber r
        = (Except.error
            (S3Err.typeError (ERROR_PREFIX ++ "partNumber must be a positive integer")), []))
    ∧ (∀ key uploadId r, (jsTrim key).length ≠ 0 → (jsTrim uploadId).length ≠ 0 →
      completeMultipartUploadRun key uploadId [] r
        = (Except.error (S3Err.typeError ERROR_PARTS_REQUIRED), []))
    ∧ (∀ key uploadId parts r, (jsTrim key).length ≠ 0 → (jsTrim uploadId).length ≠ 0 →
      parts ≠ [] → parts.all isValidPart = false →
      completeMultipartUploadRun key uploadId parts r
        = (Except.error (S3Err.typeError ERROR_INVALID_PART), [])) := by
  refine ⟨?_, ?_, ?_, ?_, ?_, ?_, ?_, ?_, ?_, ?_, ?_, ?_, ?_, ?_, ?_⟩
  · intro key r h
    simp [getRun, checkKey, h]
  · intro key r h
    simp [getObjectWithETagRun, checkKey, h]
  · intro key r h
    simp [getEtagRun, checkKey, h]
  · intro key r h
    simp [getResponseRun, checkKey, h]
  · intro key data r h
    simp [putRun, checkKey, h]
  · intro key r h
    simp [deleteRun, checkKey, h]
  · intro key r h
    simp [fileExistsRun, checkKey, h]
  · intro key r h
    simp [getContentLengthRun, checkKey, h]
  · intro key fileType r h
    simp [getMultipartUploadIdRun, checkKey, h]
  · intro key data uploadId partNumber r h
    simp [uploadPartRun, checkKey, h]
  · intro key uploadId parts r h
    simp [completeMultipartUploadRun, checkKey, h]
  · intro key uploadId r h
    simp [abortMultipartUploadRun, checkKey, h]
  · intro key data uploadId partNumber r h1 h2 h3
    have hpn : (0 < partNumber) = False := by simp; omega
    simp [uploadPartRun, checkKey, checkUploadId, h1, h2, hpn]
  · intro key uploadId r h1 h2
    simp [completeMultipartUploadRun, checkKey, checkUploadId, h1, h2]
  · intro key uploadId parts r h1 h2 h3 h4
    have hlen : parts.length ≠ 0 := by
      simpa [List.length_eq_zero] using h3
    simp [completeMultipartUploadRun, checkKey, checkUploadId, h1, h2, hlen, h4]

/-- Witness for C6 at concrete arguments. -/
theorem c6_validation_before_network_witness :
    getRun "" (HttpResponse.mk 200 "OK" [] "")
      = (Except.error (S3Err.typeError ERROR_KEY_REQUIRED), [])
    ∧ putRun " " "data" (HttpResponse.mk 200 "OK" [] "")
      = (Except.error (S3Err.typeError ERROR_KEY_REQUIRED), [])
    ∧ uploadPartRun "k" "d" "u" 0 (HttpResponse.mk 200 "OK" [] "")
      = (Except.error
          (S3Err.typeError (ERROR_PREFIX ++ "partNumber must be a positive integer")), [])
    ∧ completeMultipartUploadRun "k" "u" [] (HttpResponse.mk 200 "OK" [] "")
      = (Except.error (S3Err.typeError ERROR_PARTS_REQUIRED), [])
    ∧ completeMultipartUploadRun "k" "u" [PartArg.mk JsVal.other (JsVal.str "e")]
        (HttpResponse.mk 200 "OK" [] "")
      = (Except.error (S3Err.typeError ERROR_INVALID_PART), []) :=
  ⟨c6_validation_before_network.1 "" (HttpResponse.mk 200 "OK" [] "") (by decide),
    c6_validation_before_network.2.2.2.2.1 " " "data" (HttpResponse.mk 200 "OK" [] "")
      (by decide),
    c6_validation_before_network.2.2.2.2.2.2.2.2.2.2.2.2.1 "k" "d" "u" 0
      (HttpResponse.mk 200 "OK" [] "") (by decide) (by decide) (by decide),
    c6_validation_before_network.2.2.2.2.2.2.2.2.2.2.2.2.2.1 "k" "u"
      (HttpResponse.mk 200 "OK" [] "") (by decide) (by decide),
    c6_validation_before_network.2.2.2.2.2.2.2.2.2.2.2.2.2.2 "k" "u"
      [PartArg.mk JsVal.other (JsVal.str "e")] (HttpResponse.mk 200 "OK" [] "")
      (by decide) (by decide) (by decide) (by decide)⟩

/-! ## C3: constructor validation versus setter validation -/

/-- C3 (amended): the constructor and `setProps` validate the four
string fields (non-empty after trim) and succeed only with non-empty
strings stored; an omitted maxRequestSizeInBytes defaults to 5 MiB; but
the plain setters assign without any validation. -/
theorem c3_construction_validates_but_setters_do_not :
    (∀ config s, s3New config = Except.ok s →
      s.accessKeyId.length ≠ 0 ∧ s.secretAccessKey.length ≠ 0
        ∧ s.endpoint.length ≠ 0 ∧ s.bucketName.length ≠ 0)
    ∧ (∀ s₀ props s, setProps s₀ props = Except.ok s →
      s.accessKeyId.length ≠ 0 ∧ s.secretAccessKey.length ≠ 0
        ∧ s.endpoint.length ≠ 0 ∧ s.bucketName.length ≠ 0)
    ∧ (∀ config s, config.maxRequestSizeInBytes = none → s3New config = Except.ok s →
      s.maxRequestSizeInBytes = MIN_MAX_REQUEST_SIZE_IN_BYTES)
    ∧ (∀ s bucketName, setBucketName s bucketName = { s with bucketName := bucketName })
    ∧ (∀ s n, setMaxRequestSizeInBytes s n = { s with maxRequestSizeInBytes := n }) := by
  refine ⟨?_, ?_, ?_, fun _ _ => rfl, fun _ _ => rfl⟩
  · intro config s h
    unfold s3New at h
    cases hv : validateConstructorParams config.accessKeyId config.secretAccessKey
        config.endpoint config.bucketName with
    | error e => rw [hv] at h; cases h
    | ok u =>
      rw [hv] at h
      injection h with h
      subst h
      unfold validateConstructorParams at hv
      split_ifs at hv with h1 h2 h3 h4
      exact ⟨jsTrim_len_ne_zero _ h1, jsTrim_len_ne_zero _ h2,
        jsTrim_len_ne_zero _ h3, jsTrim_len_ne_zero _ h4⟩
  · intro s₀ props s h
    unfold setProps at h
    cases hv : validateConstructorParams props.accessKeyId props.secretAccessKey
        props.bucketName props.endpoint with
    | error e => rw [hv] at h; cases h
    | ok u =>
      rw [hv] at h
      injection h with h
      subst h
      unfold validateConstructorParams at hv
      split_ifs at hv with h1 h2 h3 h4
      exact ⟨jsTrim_len_ne_zero _ h1, jsTrim_len_ne_zero _ h2,
        jsTrim_len_ne_zero _ h4, jsTrim_len_ne_zero _ h3⟩
  · intro config s hmax h
    unfold s3New at h
    cases hv : validateConstructorParams config.accessKeyId config.secretAccessKey
        config.endpoint config.bucketName with
    | error e => rw [hv] at h; cases h
    | ok u =>
      rw [hv] at h
      injection h with h
      subst h
      simp [hmax]

/-- Witness for C3 (amended) at a concrete valid configuration. -/
theorem c3_construction_validates_but_setters_do_not_witness :
    (S3State.mk "AKIA" "SECRET" "https://s3.example.com" "bucket" "auto"
        5242880 none).accessKeyId.length ≠ 0
    ∧ (S3State.mk "AKIA" "SECRET" "https://s3.example.com" "bucket" "auto"
        5242880 none).maxRequestSizeInBytes = MIN_MAX_REQUEST_SIZE_IN_BYTES :=
  ⟨(c3_construction_validates_but_setters_do_not.1
      (S3Config.mk "AKIA" "SECRET" "https://s3.example.com" "bucket" (some "auto") none none)
      (S3State.mk "AKIA" "SECRET" "https://s3.example.com" "bucket" "auto" 5242880 none)
      rfl).1,
    c3_construction_validates_but_setters_do_not.2.2.1
      (S3Config.mk "AKIA" "SECRET" "https://s3.example.com" "bucket" (some "auto") none none)
      (S3State.mk "AKIA" "SECRET" "https://s3.example.com" "bucket" "auto" 5242880 none)
      rfl rfl⟩

/-- C3 counterexample: on a state that satisfies the claimed invariant,
`setBucketName` accepts the empty string and `setMaxRequestSizeInBytes`
accepts a value below the 5 MiB floor, so the invariant does not hold
after every setter call and the setters do not re-validate. -/
theorem c3_counterexample :
    s3New (S3Config.mk "AKIA" "SECRET" "https://s3.example.com" "bucket"
        (some "auto") none none)
      = Except.ok (S3State.mk "AKIA" "SECRET" "https://s3.example.com" "bucket" "auto"
          5242880 none)
    ∧ configInvariant (S3State.mk "AKIA" "SECRET" "https://s3.example.com" "bucket" "auto"
        5242880 none)
    ∧ (setBucketName (S3State.mk "AKIA" "SECRET" "https://s3.example.com" "bucket" "auto"
        5242880 none) "").bucketName = ""
    ∧ ¬ configInvariant (setBucketName
        (S3State.mk "AKIA" "SECRET" "https://s3.example.com" "bucket" "auto" 5242880 none) "")
    ∧ (setMaxRequestSizeInBytes
        (S3State.mk "AKIA" "SECRET" "https://s3.example.com" "bucket" "auto" 5242880 none)
        1).maxRequestSizeInBytes = 1
    ∧ ¬ configInvariant (setMaxRequestSizeInBytes
        (S3State.mk "AKIA" "SECRET" "https://s3.example.com" "bucket" "auto" 5242880 none) 1) := by
  refine ⟨rfl, by decide, rfl, ?_, rfl, ?_⟩
  · intro h
    exact absurd h.2.2.2.1 (by decide)
  · intro h
    exact absurd h.2.2.2.2 (by decide)

/-! ## C8: sanitizeETag strips one pair of quote markers -/

theorem take_length_append (l m : List Char) : (l ++ m).take l.length = l :=
  List.take_left l m

theorem isPrefixOf_append_self (l m : List Char) : l.isPrefixOf (l ++ m) = true := by
  rw [List.isPrefixOf_iff_prefix]
  exact ⟨m, rfl⟩

theorem isSuffixOf_append_self (l m : List Char) : m.isSuffixOf (l ++ m) = true := by
  rw [List.isSuffixOf_iff_suffix]
  exact ⟨l, rfl⟩

theorem sanitizeETag_wrap_quote (s : String) : sanitizeETag ("\"" ++ s ++ "\"") = s := by
  have hdata : ("\"" ++ s ++ "\"").data = '"' :: (s.data ++ ['"']) := by
    rw [strData_append, strData_append]
    rfl
  unfold sanitizeETag stripLeadingQuote
  rw [hdata]
  have hpre : qmQuote.isPrefixOf ('"' :: (s.data ++ ['"'])) = true := by
    simp [qmQuote, List.isPrefixOf]
  rw [hpre]
  simp only [if_true, List.drop_succ_cons, List.drop_zero]
  unfold stripTrailingQuote
  have hsuf : qmQuote.isSuffixOf (s.data ++ ['"']) = true := isSuffixOf_append_self _ _
  rw [hsuf]
  simp only [if_true, List.length_append, List.length_singleton, Nat.add_sub_cancel]
  rw [take_length_append s.data ['"']]

theorem sanitizeETag_wrap_entity (s : String) :
    sanitizeETag ("&quot;" ++ s ++ "&quot;") = s := by
  have hdata : ("&quot;" ++ s ++ "&quot;").data
      = qmEntity ++ (s.data ++ qmEntity) := by
    rw [strData_append, strData_append]
    simp [qmEntity]
  unfold sanitizeETag stripLeadingQuote
  rw [hdata]
  have hq : qmQuote.isPrefixOf (qmEntity ++ (s.data ++ qmEntity)) = false := by
    simp [qmQuote, qmEntity, List.isPrefixOf]
  have he : qmEntity.isPrefixOf (qmEntity ++ (s.data ++ qmEntity)) = true :=
    isPrefixOf_append_self _ _
  rw [hq, he]
  simp only [Bool.false_eq_true, if_false, if_true]
  have hdrop : (qmEntity ++ (s.data ++ qmEntity)).drop 6 = s.data ++ qmEntity := by
    rw [show (6 : Nat) = qmEntity.length from rfl]
    exact List.drop_left _ _
  rw [hdrop]
  unfold stripTrailingQuote
  have hqs : qmQuote.isSuffixOf (s.data ++ qmEntity) = false := by
    unfold List.isSuffixOf
    rw [List.reverse_append]
    simp [qmQuote, qmEntity, List.isPrefixOf]
  have hes : qmEntity.isSuffixOf (s.data ++ qmEntity) = true := isSuffixOf_append_self _ _
  rw [hqs, hes]
  simp only [Bool.false_eq_true, if_false, if_true]
  have hlen : (s.data ++ qmEntity).length - 6 = s.data.length := by
    rw [List.length_append]
    rfl
  rw [hlen, take_length_append s.data qmEntity]

theorem sanitizeETag_wrap_numeric (s : String) :
    sanitizeETag ("&#34;" ++ s ++ "&#34;") = s := by
  have hdata : ("&#34;" ++ s ++ "&#34;").data
      = qmNumeric ++ (s.data ++ qmNumeric) := by
    rw [strData_append, strData_append]
    simp [qmNumeric]
  unfold sanitizeETag stripLeadingQuote
  rw [hdata]
  have hq : qmQuote.isPrefixOf (qmNumeric ++ (s.data ++ qmNumeric)) = false := by
    simp [qmQuote, qmNumeric, List.isPrefixOf]
  have he : qmEntity.isPrefixOf (qmNumeric ++ (s.data ++ qmNumeric)) = false := by
    simp [qmEntity, qmNumeric, List.isPrefixOf]
  have hn : qmNumeric.isPrefixOf (qmNumeric ++ (s.data ++ qmNumeric)) = true :=
    isPrefixOf_append_self _ _
  rw [hq, he, hn]
  simp only [Bool.false_eq_true, if_false, if_true]
  have hdrop : (qmNumeric ++ (s.data ++ qmNumeric)).drop 5 = s.data ++ qmNumeric := by
    rw [show (5 : Nat) = qmNumeric.length from rfl]
    exact List.drop_left _ _
  rw [hdrop]
  unfold stripTrailingQuote
  have hqs : qmQuote.isSuffixOf (s.data ++ qmNumeric) = false := by
    unfold List.isSuffixOf
    rw [List.reverse_append]
    simp [qmQuote, qmNumeric, List.isPrefixOf]
  have hes : qmEntity.isSuffixOf (s.data ++ qmNumeric) = false := by
    unfold List.isSuffixOf
    rw [List.reverse_append]
    simp [qmEntity, qmNumeric, List.isPrefixOf]
  have hns : qmNumeric.isSuffixOf (s.data ++ qmNumeric) = true := isSuffixOf_append_self _ _
  rw [hqs, hes, hns]
  simp only [Bool.false_eq_true, if_false, if_true]
  have hlen : (s.data ++ qmNumeric).length - 5 = s.data.length := by
    rw [List.length_append]
    rfl
  rw [hlen, take_length_append s.data qmNumeric]

theorem sanitizeETag_no_marker (s : String) (h1 : startsWithQuoteMarker s = false)
    (h2 : endsWithQuoteMarker s = false) : sanitizeETag s = s := by
  unfold startsWithQuoteMarker at h1
  unfold endsWithQuoteMarker at h2
  simp only [Bool.or_eq_false_iff] at h1 h2
  unfold sanitizeETag stripLeadingQuote
  rw [h1.1.1, h1.1.2, h1.2]
  simp only [Bool.false_eq_true, if_false]
  unfold stripTrailingQuote
  rw [h2.1.1, h2.1.2, h2.2]
  simp only [Bool.false_eq_true, if_false]

/-- C8 (amended): `sanitizeETag` strips exactly one pair of surrounding
quote markers per application and leaves marker-free strings unchanged;
the three example values all map to abc.  It is not idempotent on inputs
with nested markers (see the counterexample). -/
theorem c8_sanitizeETag_strips_one_pair :
    (∀ s : String, sanitizeETag ("\"" ++ s ++ "\"") = s)
    ∧ (∀ s : String, sanitizeETag ("&quot;" ++ s ++ "&quot;") = s)
    ∧ (∀ s : String, sanitizeETag ("&#34;" ++ s ++ "&#34;") = s)
    ∧ (∀ s : String, startsWithQuoteMarker s = false → endsWithQuoteMarker s = false →
        sanitizeETag s = s)
    ∧ sanitizeETag "\"abc\"" = "abc"
    ∧ sanitizeETag "&quot;abc&quot;" = "abc"
    ∧ sanitizeETag "abc" = "abc" :=
  ⟨sanitizeETag_wrap_quote, sanitizeETag_wrap_entity, sanitizeETag_wrap_numeric,
    sanitizeETag_no_marker, by decide, by decide, by decide⟩

/-- Witness for C8 (amended): the marker-free clause at abc. -/
theorem c8_sanitizeETag_strips_one_pair_witness :
    sanitizeETag "abc" = "abc" :=
  c8_sanitizeETag_strips_one_pair.2.2.2.1 "abc" (by decide) (by decide)

/-- C8 counterexample: `sanitizeETag` is not idempotent; on a string of
three double quotes one application leaves one quote, a second strips
it. -/
theorem c8_counterexample :
    sanitizeETag "\"\"\"" = "\""
    ∧ sanitizeETag (sanitizeETag "\"\"\"") = ""
    ∧ sanitizeETag (sanitizeETag "\"\"\"") ≠ sanitizeETag "\"\"\"" :=
  ⟨by decide, by decide, by decide⟩

/-! ## C2: canonical query string -/

theorem char_toNat_inj (a b : Char) (h : a.toNat = b.toNat) : a = b := by
  have h2 := congrArg Char.ofNat h
  rwa [Char.ofNat_toNat, Char.ofNat_toNat] at h2

theorem jsLeL_total (x : List Char) : ∀ y, jsLeL x y = true ∨ jsLeL y x = true := by
  induction x with
  | nil => intro y; left; rfl
  | cons a as ih =>
    intro y
    cases y with
    | nil => right; rfl
    | cons b bs =>
      by_cases h1 : a.toNat < b.toNat
      · left; simp [jsLeL, h1]
      · by_cases h2 : b.toNat < a.toNat
        · right; simp [jsLeL, h2]
        · rcases ih bs with h | h
          · left; simpa [jsLeL, h1, h2] using h
          · right; simpa [jsLeL, h1, h2] using h

theorem jsLeL_cons_iff (a b : Char) (as bs : List Char) :
    jsLeL (a :: as) (b :: bs) = true
      ↔ a.toNat < b.toNat ∨ (a.toNat = b.toNat ∧ jsLeL as bs = true) := by
  by_cases h1 : a.toNat < b.toNat
  · simp [jsLeL, h1]
  · by_cases h2 : b.toNat < a.toNat
    · simp only [jsLeL, h1, h2, if_false, if_true]
      constructor
      · intro h; cases h
      · intro h
        rcases h with h | ⟨h, _⟩
        · exact h.elim
        · exact absurd h (by omega)
    · have he : a.toNat = b.toNat := by omega
      simp [jsLeL, h1, h2, he]

theorem jsLeL_trans (x : List Char) :
    ∀ y z, jsLeL x y = true → jsLeL y z = true → jsLeL x z = true := by
  induction x with
  | nil => intro y z _ _; rfl
  | cons a as ih =>
    intro y z hxy hyz
    cases y with
    | nil => simp [jsLeL] at hxy
    | cons b bs =>
      cases z with
      | nil => simp [jsLeL] at hyz
      | cons c cs =>
        rw [jsLeL_cons_iff] at hxy hyz ⊢
        rcases hxy with h | ⟨he, hx⟩
        · rcases hyz with h2 | ⟨he2, _⟩
          · left; omega
          · left; omega
        · rcases hyz with h2 | ⟨he2, hy⟩
          · left; omega
          · right; exact ⟨by omega, ih bs cs hx hy⟩

theorem jsLeL_antisymm (x : List Char) :
    ∀ y, jsLeL x y = true → jsLeL y x = true → x = y := by
  induction x with
  | nil =>
    intro y _ hyx
    cases y with
    | nil => rfl
    | cons b bs => simp [jsLeL] at hyx
  | cons a as ih =>
    intro y hxy hyx
    cases y with
    | nil => simp [jsLeL] at hxy
    | cons b bs =>
      by_cases hab : a.toNat < b.toNat
      · simp [jsLeL, hab, Nat.lt_asymm hab] at hyx
      · by_cases hba : b.toNat < a.toNat
        · simp [jsLeL, hab, hba] at hxy
        · have hchar : a = b := char_toNat_inj a b (by omega)
          subst hchar
          simp only [jsLeL, hab, if_neg, if_false] at hxy hyx
          rw [ih bs (by simpa using hxy) (by simpa using hyx)]

theorem sortStrings_perm (l : List String) : (sortStrings l).Perm l :=
  List.perm_insertionSort _ l

theorem sortStrings_sorted (l : List String) :
    List.Sorted (fun a b => jsStrLe a b = true) (sortStrings l) := by
  haveI : IsTotal String (fun a b => jsStrLe a b = true) :=
    ⟨fun a b => jsLeL_total a.data b.data⟩
  haveI : IsTrans String (fun a b => jsStrLe a b = true) :=
    ⟨fun a b c => jsLeL_trans a.data b.data c.data⟩
  exact List.sorted_insertionSort _ l

theorem sortStrings_eq_of_perm (l₁ l₂ : List String) (p : l₁.Perm l₂) :
    sortStrings l₁ = sortStrings l₂ := by
  haveI : IsAntisymm String (fun a b => jsStrLe a b = true) :=
    ⟨fun a b h1 h2 => by
      have := jsLeL_antisymm a.data b.data h1 h2
      calc a = String.mk a.data := (strMk_data a).symm
        _ = String.mk b.data := by rw [this]
        _ = b := strMk_data b⟩
  exact List.eq_of_perm_of_sorted
    ((sortStrings_perm l₁).trans (p.trans (sortStrings_perm l₂).symm))
    (sortStrings_sorted l₁) (sortStrings_sorted l₂)

theorem assocGet_perm (q₁ q₂ : List (String × String)) (p : q₁.Perm q₂)
    (hnd : (q₁.map Prod.fst).Nodup) : ∀ k, assocGet q₁ k = assocGet q₂ k := by
  induction p with
  | nil => intro k; rfl
  | cons x p ih =>
    intro k
    simp only [List.map_cons, List.nodup_cons] at hnd
    simp only [assocGet, ih hnd.2 k]
  | swap x y l =>
    intro k
    simp only [List.map_cons, List.nodup_cons, List.mem_cons] at hnd
    have hxy : y.1 ≠ x.1 := fun h => hnd.1 (Or.inl h)
    by_cases hx : x.1 = k
    · by_cases hy : y.1 = k
      · exact absurd (hy.trans hx.symm) hxy
      · simp [assocGet, hx, hy]
    · simp [assocGet, hx]
  | trans p1 p2 ih1 ih2 =>
    intro k
    have hnd2 := ((p1.map Prod.fst).nodup_iff).mp hnd
    exact (ih1 hnd k).trans (ih2 hnd2 k)

theorem buildCanonicalQueryString_nonempty (q : List (String × String)) (hq : q ≠ []) :
    buildCanonicalQueryString q
      = String.intercalate "&" ((sortStrings (q.map Prod.fst)).map (fun key =>
          encodeURIComponent key ++ "=" ++ encodeURIComponent (assocGet q key))) := by
  unfold buildCanonicalQueryString
  rw [if_neg]
  intro hlt
  exact hq (List.length_eq_zero.mp (by omega))

/-- C2 (amended): the canonical query string is built from
`percentEncode(key)=percentEncode(value)` pairs in ascending
code-unit key order joined by ampersands, and the empty query produces
the empty string — but the percent encoder is plain
`encodeURIComponent`, which leaves the characters exclamation mark,
apostrophe, parentheses and asterisk unescaped (the strict `uriEscape`
is not applied to query strings). -/
theorem c2_canonical_query_sorted :
    buildCanonicalQueryString [] = ""
    ∧ (∀ q : List (String × String), q ≠ [] →
        buildCanonicalQueryString q
          = String.intercalate "&" ((sortStrings (q.map Prod.fst)).map (fun key =>
              encodeURIComponent key ++ "=" ++ encodeURIComponent (assocGet q key))))
    ∧ (∀ q : List (String × String),
        List.Sorted (fun a b => jsStrLe a b = true) (sortStrings (q.map Prod.fst)))
    ∧ (∀ q₁ q₂ : List (String × String), q₁.Perm q₂ → (q₁.map Prod.fst).Nodup →
        buildCanonicalQueryString q₁ = buildCanonicalQueryString q₂) := by
  refine ⟨rfl, buildCanonicalQueryString_nonempty, fun q => sortStrings_sorted _, ?_⟩
  intro q₁ q₂ p hnd
  by_cases hq : q₁ = []
  · subst hq
    rw [p.symm.eq_nil]
  · have hq2 : q₂ ≠ [] := fun h => hq (by subst h; exact p.eq_nil)
    rw [buildCanonicalQueryString_nonempty q₁ hq, buildCanonicalQueryString_nonempty q₂ hq2]
    rw [sortStrings_eq_of_perm (q₁.map Prod.fst) (q₂.map Prod.fst) (p.map Prod.fst)]
    congr 1
    apply List.map_congr_left
    intro k hk
    rw [assocGet_perm q₁ q₂ p hnd k]

/-- Witness for C2 (amended) at a concrete two-key query supplied in
descending order. -/
theorem c2_canonical_query_sorted_witness :
    buildCanonicalQueryString [("b", "2"), ("a", "1")]
      = String.intercalate "&"
          ((sortStrings ([("b", "2"), ("a", "1")].map Prod.fst)).map (fun key =>
            encodeURIComponent key ++ "=" ++ encodeURIComponent
              (assocGet [("b", "2"), ("a", "1")] key)))
    ∧ buildCanonicalQueryString [("b", "2"), ("a", "1")]
      = buildCanonicalQueryString [("a", "1"), ("b", "2")] :=
  ⟨c2_canonical_query_sorted.2.1 [("b", "2"), ("a", "1")] (by decide),
    c2_canonical_query_sorted.2.2.2 [("b", "2"), ("a", "1")] [("a", "1"), ("b", "2")]
      (by decide) (by decide)⟩

/-- C2 counterexample: the canonical query string does not apply the
strict RFC 3986 escaping; an asterisk value is emitted verbatim, where
the claim requires the escaped form produced by `uriEscape`. -/
theorem c2_counterexample :
    buildCanonicalQueryString [("k", "*")] = "k=*"
    ∧ uriEscape "*" = "%2A"
    ∧ buildCanonicalQueryString [("k", "*")] ≠ "k=" ++ uriEscape "*" :=
  ⟨by decide, by decide, by decide⟩

/-! ## C1: serialization order of completeMultipartUpload parts -/

theorem hardMismatch_isPrefixOf (pat : List Char) :
    ∀ t, hardMismatch pat t = true → ∀ X, pat.isPrefixOf (t ++ X) = false := by
  induction pat with
  | nil => intro t h; simp [hardMismatch] at h
  | cons p ps ih =>
    intro t h X
    cases t with
    | nil => simp [hardMismatch] at h
    | cons c cs =>
      simp only [hardMismatch] at h
      by_cases hpc : (p == c) = true
      · rw [hpc, if_pos rfl] at h
        simp only [List.cons_append, List.isPrefixOf, List.append_eq]
        rw [hpc, Bool.true_and, ih cs h X]
      · have hpc' : (p == c) = false := Bool.eq_false_iff.mpr hpc
        simp only [List.cons_append, List.isPrefixOf, List.append_eq]
        rw [hpc', Bool.false_and]

theorem scanPN_skip (l : List Char) (h : cleanForScan l = true) :
    ∀ X, scanPN (l ++ X) = scanPN X := by
  induction l with
  | nil => intro X; rfl
  | cons c cs ih =>
    intro X
    simp only [cleanForScan, Bool.and_eq_true] at h
    have hcond : pnPat.isPrefixOf ((c :: cs) ++ X) = false :=
      hardMismatch_isPrefixOf pnPat (c :: cs) h.1 X
    rw [List.cons_append, scanPN.eq_def]
    simp only [← List.cons_append, hcond, Bool.false_eq_true, if_false]
    exact ih h.2 X

theorem scanPN_match (tail : List Char) :
    scanPN (pnPat ++ tail)
      = tail.takeWhile (fun ch => ch != '<')
          :: scanPN (tail.dropWhile (fun ch => ch != '<')) := by
  have h : pnPat ++ tail = '<' :: ("PartNumber>".data ++ tail) := rfl
  rw [h, scanPN.eq_def]
  have hcond : pnPat.isPrefixOf ('<' :: ("PartNumber>".data ++ tail)) = true := by
    rw [← h]
    exact isPrefixOf_append_self pnPat tail
  simp only [hcond, if_true]
  have hdrop : ('<' :: ("PartNumber>".data ++ tail)).drop pnPat.length = tail := by
    rw [← h]
    exact List.drop_left pnPat tail
  rw [hdrop]

theorem takeWhile_no_lt (d : List Char) (hd : ∀ c ∈ d, c ≠ '<') (r : List Char) :
    (d ++ '<' :: r).takeWhile (fun ch => ch != '<') = d := by
  induction d with
  | nil => simp [List.takeWhile]
  | cons c cs ih =>
    have hc : (c != '<') = true := by
      simpa using hd c (List.mem_cons_self c cs)
    simp only [List.cons_append, List.takeWhile_cons, hc, if_true]
    rw [ih (fun x hx => hd x (List.mem_cons_of_mem c hx))]

theorem dropWhile_no_lt (d : List Char) (hd : ∀ c ∈ d, c ≠ '<') (r : List Char) :
    (d ++ '<' :: r).dropWhile (fun ch => ch != '<') = '<' :: r := by
  induction d with
  | nil => simp [List.dropWhile]
  | cons c cs ih =>
    have hc : (c != '<') = true := by
      simpa using hd c (List.mem_cons_self c cs)
    simp only [List.cons_append, List.dropWhile_cons, hc, if_true]
    exact ih (fun x hx => hd x (List.mem_cons_of_mem c hx))

theorem digitChar_ne_lt (m : Nat) (hm : m < 10) : Nat.digitChar m ≠ '<' := by
  interval_cases m <;> decide

theorem toDigitsCore_no_lt (f : Nat) :
    ∀ (n : Nat) (ds : List Char), (∀ c ∈ ds, c ≠ '<') →
      ∀ c ∈ Nat.toDigitsCore 10 f n ds, c ≠ '<' := by
  induction f with
  | zero =>
    intro n ds h c hc
    rw [Nat.toDigitsCore] at hc
    exact h c hc
  | succ f ih =>
    intro n ds h c hc
    rw [Nat.toDigitsCore] at hc
    split at hc
    · rcases List.mem_cons.mp hc with h1 | h1
      · rw [h1]; exact digitChar_ne_lt _ (Nat.mod_lt _ (by norm_num))
      · exact h c h1
    · refine ih (n / 10) (Nat.digitChar (n % 10) :: ds) ?_ c hc
      intro x hx
      rcases List.mem_cons.mp hx with h1 | h1
      · rw [h1]; exact digitChar_ne_lt _ (Nat.mod_lt _ (by norm_num))
      · exact h x h1

theorem natRepr_no_lt (n : Nat) : ∀ c ∈ (toString n).data, c ≠ '<' := by
  intro c hc
  have h : (toString n).data = Nat.toDigitsCore 10 (n + 1) n [] := rfl
  rw [h] at hc
  exact toDigitsCore_no_lt (n + 1) n [] (by intro x hx; cases hx) c hc

theorem cleanForScan_no_lt (l : List Char) (h : ∀ c ∈ l, c ≠ '<') :
    cleanForScan l = true := by
  induction l with
  | nil => rfl
  | cons c cs ih =>
    have hc : c ≠ '<' := h c (List.mem_cons_self c cs)
    have hp : pnPat = '<' :: "PartNumber>".data := rfl
    have hb : ('<' == c) = false := beq_false_of_ne (Ne.symm hc)
    have hm : hardMismatch pnPat (c :: cs) = true := by
      rw [hp]
      simp only [hardMismatch, hb, Bool.false_eq_true, if_false]
    simp only [cleanForScan, hm, Bool.true_and]
    exact ih (fun x hx => h x (List.mem_cons_of_mem c hx))

theorem scanPN_partXml (p : UploadPart) (X : List Char)
    (h : ∀ c ∈ p.ETag.data, c ≠ '<') :
    scanPN ((partXml p).data ++ X) = (toString p.partNumber).data :: scanPN X := by
  have hdata : (partXml p).data ++ X
      = "\n          <Part>\n            ".data
        ++ (pnPat ++ ((toString p.partNumber).data
          ++ (entryMid ++ (p.ETag.data ++ (entryTail ++ X))))) := by
    show (entryHead ++ (toString p.partNumber).data ++ entryMid ++ p.ETag.data ++ entryTail)
        ++ X = _
    have hsplit : entryHead = "\n          <Part>\n            ".data ++ pnPat := by decide
    rw [hsplit]
    simp [List.append_assoc]
  rw [hdata]
  rw [scanPN_skip _ (by decide)]
  rw [scanPN_match]
  have hmid : entryMid ++ (p.ETag.data ++ (entryTail ++ X))
      = '<' :: ("/PartNumber>\n            <ETag>".data ++ (p.ETag.data ++ (entryTail ++ X))) :=
    rfl
  rw [hmid]
  rw [takeWhile_no_lt _ (natRepr_no_lt p.partNumber) _]
  rw [dropWhile_no_lt _ (natRepr_no_lt p.partNumber) _]
  rw [← hmid]
  rw [scanPN_skip entryMid (by decide)]
  rw [scanPN_skip p.ETag.data (cleanForScan_no_lt _ h)]
  rw [scanPN_skip entryTail (by decide)]

theorem strJoin_data_aux (l : List String) :
    ∀ acc : String, (List.foldl (· ++ ·) acc l).data
      = acc.data ++ (l.map String.data).flatten := by
  induction l with
  | nil => intro acc; simp
  | cons x xs ih =>
    intro acc
    simp only [List.foldl_cons, List.map_cons, List.flatten_cons]
    rw [ih (acc ++ x), strData_append, List.append_assoc]

theorem strJoin_data (l : List String) :
    (String.join l).data = (l.map String.data).flatten := by
  have h : String.join l = List.foldl (· ++ ·) "" l := rfl
  rw [h, strJoin_data_aux l ""]
  rfl

theorem scanPN_entries (parts : List UploadPart)
    (h : ∀ p ∈ parts, ∀ c ∈ p.ETag.data, c ≠ '<') (Y : List Char) (hY : scanPN Y = []) :
    scanPN (((parts.map partXml).map String.data).flatten ++ Y)
      = parts.map (fun p => (toString p.partNumber).data) := by
  induction parts with
  | nil =>
    simp only [List.map_nil, List.flatten_nil, List.nil_append]
    exact hY
  | cons p ps ih =>
    simp only [List.map_cons, List.flatten_cons, List.append_assoc]
    rw [scanPN_partXml p _ (h p (List.mem_cons_self p ps))]
    rw [ih (fun q hq => h q (List.mem_cons_of_mem p hq))]

theorem partNumberRuns_build (parts : List UploadPart)
    (h : ∀ p ∈ parts, ∀ c ∈ p.ETag.data, c ≠ '<') :
    partNumberRuns (buildCompleteMultipartUploadXml parts)
      = parts.map (fun p => toString p.partNumber) := by
  have hfoot : scanPN ("\n      </CompleteMultipartUpload>\n    ".data) = [] := by
    rw [← List.append_nil ("\n      </CompleteMultipartUpload>\n    ".data)]
    rw [scanPN_skip _ (by decide)]
    rw [scanPN.eq_def]
  unfold partNumberRuns buildCompleteMultipartUploadXml
  rw [strData_append, strData_append, strJoin_data, List.append_assoc]
  rw [scanPN_skip _ (by decide)]
  rw [scanPN_entries parts h _ hfoot]
  rw [List.map_map]
  apply List.map_congr_left
  intro p hp
  exact strMk_data _

/-- C1 (amended): `_buildCompleteMultipartUploadXml` serializes the
parts in the order the caller supplies them — no sorting by partNumber
happens anywhere — so the PartNumber entries appear in the body in
exactly the caller-supplied order (stated for ETags that contain no
angle bracket, which every real ETag satisfies). -/
theorem c1_parts_serialized_in_caller_order (parts : List UploadPart)
    (h : ∀ p ∈ parts, ∀ c ∈ p.ETag.data, c ≠ '<') :
    partNumberRuns (buildCompleteMultipartUploadXml parts)
      = parts.map (fun p => toString p.partNumber) :=
  partNumberRuns_build parts h

/-- Witness for C1 (amended) at a single concrete part. -/
theorem c1_parts_serialized_in_caller_order_witness :
    partNumberRuns (buildCompleteMultipartUploadXml [UploadPart.mk 1 "a"]) = ["1"] := by
  rw [c1_parts_serialized_in_caller_order [UploadPart.mk 1 "a"] (by decide)]
  rfl

/-- C1 counterexample: for the parts list of the claim, part 2 is
serialized before part 1, and the body differs from the ascending-order
body. -/
theorem c1_counterexample :
    partNumberRuns (buildCompleteMultipartUploadXml
        [UploadPart.mk 2 "b", UploadPart.mk 1 "a"])
      = ["2", "1"]
    ∧ (["2", "1"] : List String) ≠ ["1", "2"]
    ∧ buildCompleteMultipartUploadXml [UploadPart.mk 2 "b", UploadPart.mk 1 "a"]
      ≠ buildCompleteMultipartUploadXml [UploadPart.mk 1 "a", UploadPart.mk 2 "b"] := by
  refine ⟨?_, by decide, by decide⟩
  rw [partNumberRuns_build _ (by decide)]
  rfl

/-! ## C9 and C10: XML decoding of repeated and string values -/

theorem jsonLookup_setKey_self (j : List (String × JVal)) (k : String) (v : JVal) :
    jsonLookup (setKey j k v) k = some v := by
  induction j with
  | nil => simp [setKey, jsonLookup]
  | cons p t ih =>
    by_cases h : p.1 = k
    · simp [setKey, jsonLookup, h]
    · simp [setKey, jsonLookup, h, ih]

theorem jsonLookup_setKey_ne (j : List (String × JVal)) (k' k : String) (v : JVal)
    (h : k' ≠ k) : jsonLookup (setKey j k' v) k = jsonLookup j k := by
  induction j with
  | nil => simp [setKey, jsonLookup, h]
  | cons p t ih =>
    by_cases hp : p.1 = k'
    · simp [setKey, jsonLookup, hp, h]
    · simp only [setKey, hp, if_false]
      by_cases hpk : p.1 = k
      · simp [jsonLookup, hpk]
      · simp [jsonLookup, hpk, ih]

theorem parseStep_nonstr (j : List (String × JVal)) (k : String) (v : JVal)
    (hv : v.isStr = false) :
    parseStep j (k, v)
      = match jsonLookup j k with
        | some (JVal.arr a) => setKey j k (JVal.arr (a ++ [v]))
        | some w => setKey j k (JVal.arr [w, v])
        | none => setKey j k (if expectArray k then JVal.arr [v] else v) := by
  cases v with
  | str s => simp [JVal.isStr] at hv
  | bool b => rfl
  | obj f => rfl
  | arr a => rfl

theorem parseStep_lookup_ne (j : List (String × JVal)) (m : String × JVal) (k : String)
    (h : m.1 ≠ k) : jsonLookup (parseStep j m) k = jsonLookup j k := by
  obtain ⟨km, vm⟩ := m
  simp only at h
  cases vm with
  | str s => simp only [parseStep]; exact jsonLookup_setKey_ne _ _ _ _ h
  | bool b =>
    simp only [parseStep]
    cases hj : jsonLookup j km with
    | none => exact jsonLookup_setKey_ne _ _ _ _ h
    | some w => cases w <;> exact jsonLookup_setKey_ne _ _ _ _ h
  | obj f =>
    simp only [parseStep]
    cases hj : jsonLookup j km with
    | none => exact jsonLookup_setKey_ne _ _ _ _ h
    | some w => cases w <;> exact jsonLookup_setKey_ne _ _ _ _ h
  | arr a =>
    simp only [parseStep]
    cases hj : jsonLookup j km with
    | none => exact jsonLookup_setKey_ne _ _ _ _ h
    | some w => cases w <;> exact jsonLookup_setKey_ne _ _ _ _ h

theorem contentsFold_arr (ms : List (String × JVal)) :
    ∀ (acc : List (String × JVal)) (a : List JVal),
      (∀ v, ("contents", v) ∈ ms → v.isStr = false) →
      jsonLookup acc "contents" = some (JVal.arr a) →
      jsonLookup (ms.foldl parseStep acc) "contents"
        = some (JVal.arr (a ++ ms.filterMap (fun m =>
            if m.1 = "contents" then some m.2 else none))) := by
  induction ms with
  | nil => intro acc a _ hacc; simpa using hacc
  | cons m ms ih =>
    intro acc a h hacc
    by_cases hk : m.1 = "contents"
    · obtain ⟨km, vm⟩ := m
      simp only at hk
      subst hk
      have hv : vm.isStr = false := h vm (List.mem_cons_self _ _)
      simp only [List.foldl_cons, List.filterMap_cons, if_pos rfl]
      rw [parseStep_nonstr acc "contents" vm hv]
      rw [hacc]
      rw [ih (setKey acc "contents" (JVal.arr (a ++ [vm]))) (a ++ [vm])
        (fun v hv2 => h v (List.mem_cons_of_mem _ hv2))
        (jsonLookup_setKey_self acc "contents" (JVal.arr (a ++ [vm])))]
      simp
    · simp only [List.foldl_cons, List.filterMap_cons, if_neg hk]
      rw [ih (parseStep acc m) a (fun v hv2 => h v (List.mem_cons_of_mem _ hv2))]
      rw [parseStep_lookup_ne acc m "contents" hk]
      exact hacc

theorem contentsFold_none (ms : List (String × JVal)) :
    ∀ acc : List (String × JVal),
      (∀ v, ("contents", v) ∈ ms → v.isStr = false) →
      jsonLookup acc "contents" = none →
      jsonLookup (ms.foldl parseStep acc) "contents"
        = match ms.filterMap (fun m => if m.1 = "contents" then some m.2 else none) with
          | [] => none
          | vs => some (JVal.arr vs) := by
  induction ms with
  | nil => intro acc _ hacc; simpa using hacc
  | cons m ms ih =>
    intro acc h hacc
    by_cases hk : m.1 = "contents"
    · obtain ⟨km, vm⟩ := m
      simp only at hk
      subst hk
      have hv : vm.isStr = false := h vm (List.mem_cons_self _ _)
      simp only [List.foldl_cons, List.filterMap_cons, if_pos rfl]
      rw [parseStep_nonstr acc "contents" vm hv]
      rw [hacc]
      have he : expectArray "contents" = true := rfl
      rw [he, if_pos rfl]
      rw [contentsFold_arr ms (setKey acc "contents" (JVal.arr [vm])) [vm]
        (fun v hv2 => h v (List.mem_cons_of_mem _ hv2))
        (jsonLookup_setKey_self acc "contents" (JVal.arr [vm]))]
      simp
    · simp only [List.foldl_cons, List.filterMap_cons, if_neg hk]
      rw [ih (parseStep acc m) (fun v hv2 => h v (List.mem_cons_of_mem _ hv2))]
      rw [parseStep_lookup_ne acc m "contents" hk]
      exact hacc

theorem strProvenance (ms : List (String × JVal)) :
    ∀ (acc : List (String × JVal)) (k : String) (s : String),
      jsonLookup (ms.foldl parseStep acc) k = some (JVal.str s) →
      (∃ s₀, (k, JVal.str s₀) ∈ ms ∧ s = sanitizeETag (unescapeXml s₀))
        ∨ jsonLookup acc k = some (JVal.str s) := by
  induction ms with
  | nil => intro acc k s h; exact Or.inr h
  | cons m ms ih =>
    intro acc k s h
    rcases ih (parseStep acc m) k s h with hL | hR
    · obtain ⟨s₀, hmem, he⟩ := hL
      exact Or.inl ⟨s₀, List.mem_cons_of_mem _ hmem, he⟩
    · by_cases hk : m.1 = k
      · obtain ⟨km, vm⟩ := m
        simp only at hk
        subst hk
        cases vm with
        | str s₀ =>
          simp only [parseStep] at hR
          rw [jsonLookup_setKey_self] at hR
          have he : JVal.str (sanitizeETag (unescapeXml s₀)) = JVal.str s :=
            Option.some.inj hR
          refine Or.inl ⟨s₀, List.mem_cons_self _ _, ?_⟩
          cases he
          rfl
        | bool b =>
          rw [parseStep_nonstr acc km (JVal.bool b) rfl] at hR
          cases hj : jsonLookup acc km with
          | none =>
            rw [hj] at hR
            rw [jsonLookup_setKey_self] at hR
            by_cases hea : expectArray km = true
            · rw [hea, if_pos rfl] at hR
              cases Option.some.inj hR
            · rw [Bool.eq_false_iff.mpr hea] at hR
              simp only [Bool.false_eq_true, if_false] at hR
              cases Option.some.inj hR
          | some w =>
            rw [hj] at hR
            cases w <;> rw [jsonLookup_setKey_self] at hR <;> cases Option.some.inj hR
        | obj f =>
          rw [parseStep_nonstr acc km (JVal.obj f) rfl] at hR
          cases hj : jsonLookup acc km with
          | none =>
            rw [hj] at hR
            rw [jsonLookup_setKey_self] at hR
            by_cases hea : expectArray km = true
            · rw [hea, if_pos rfl] at hR
              cases Option.some.inj hR
            · rw [Bool.eq_false_iff.mpr hea] at hR
              simp only [Bool.false_eq_true, if_false] at hR
              cases Option.some.inj hR
          | some w =>
            rw [hj] at hR
            cases w <;> rw [jsonLookup_setKey_self] at hR <;> cases Option.some.inj hR
        | arr a =>
          rw [parseStep_nonstr acc km (JVal.arr a) rfl] at hR
          cases hj : jsonLookup acc km with
          | none =>
            rw [hj] at hR
            rw [jsonLookup_setKey_self] at hR
            by_cases hea : expectArray km = true
            · rw [hea, if_pos rfl] at hR
              cases Option.some.inj hR
            · rw [Bool.eq_false_iff.mpr hea] at hR
              simp only [Bool.false_eq_true, if_false] at hR
              cases Option.some.inj hR
          | some w =>
            rw [hj] at hR
            cases w <;> rw [jsonLookup_setKey_self] at hR <;> cases Option.some.inj hR
      · rw [parseStep_lookup_ne acc m k hk] at hR
        exact Or.inr hR

/-- C9: for match lists in which the contents tag carries non-string
values (as in every listing response, where each Contents element has
child elements), the decoder binds contents to an array of all the
contents values in document order, an array of length 1 when the tag
occurs once; concretely, a listing body with one Contents element
decodes to a contents array of length 1 and one with two sibling
Contents elements to an array of length 2 in document order. -/
theorem c9_contents_always_array :
    (∀ ms : List (String × JVal), (∀ v, ("contents", v) ∈ ms → v.isStr = false) →
      jsonLookup (processMatches ms) "contents"
        = match ms.filterMap (fun m => if m.1 = "contents" then some m.2 else none) with
          | [] => none
          | vs => some (JVal.arr vs))
    ∧ parseXml
        "<ListBucketResult><Contents><Key>a1</Key><Size>3</Size></Contents></ListBucketResult>"
      = JVal.obj [("listBucketResult", JVal.obj [("contents", JVal.arr
          [JVal.obj [("key", JVal.str "a1"), ("size", JVal.str "3")]])])]
    ∧ contentsArrayLength (parseXml
        "<ListBucketResult><Contents><Key>a1</Key><Size>3</Size></Contents></ListBucketResult>")
      = some 1
    ∧ parseXml
        "<ListBucketResult><Contents><Key>a1</Key></Contents><Contents><Key>a2</Key></Contents></ListBucketResult>"
      = JVal.obj [("listBucketResult", JVal.obj [("contents", JVal.arr
          [JVal.obj [("key", JVal.str "a1")], JVal.obj [("key", JVal.str "a2")]])])]
    ∧ contentsArrayLength (parseXml
        "<ListBucketResult><Contents><Key>a1</Key></Contents><Contents><Key>a2</Key></Contents></ListBucketResult>")
      = some 2 :=
  ⟨fun ms h => contentsFold_none ms [] h rfl, rfl, rfl, rfl, rfl⟩

/-- Witness for C9 at a single-element match list. -/
theorem c9_contents_always_array_witness :
    jsonLookup (processMatches [("contents", JVal.obj [])]) "contents"
      = some (JVal.arr [JVal.obj []]) := by
  have h := c9_contents_always_array.1 [("contents", JVal.obj [])]
    (by intro v hv; simp at hv; subst hv; rfl)
  exact h

/-- C10: the decoder applies `sanitizeETag` to every decoded string
value, whatever its tag: a string match is always stored sanitized, any
string binding in the decoded object is the sanitized unescape of some
input value, and a Key element with quoted text decodes with the quote
markers stripped. -/
theorem c10_decoder_sanitizes_every_string :
    (∀ (json : List (String × JVal)) (k s : String),
      parseStep json (k, JVal.str s)
        = setKey json k (JVal.str (sanitizeETag (unescapeXml s))))
    ∧ (∀ (ms : List (String × JVal)) (k s : String),
      jsonLookup (processMatches ms) k = some (JVal.str s) →
      ∃ s₀, (k, JVal.str s₀) ∈ ms ∧ s = sanitizeETag (unescapeXml s₀))
    ∧ parseXml "<Key>\"v\"</Key>" = JVal.obj [("key", JVal.str "v")]
    ∧ parseXml "<Key>&quot;v&quot;</Key>" = JVal.obj [("key", JVal.str "v")] := by
  refine ⟨fun json k s => rfl, ?_, rfl, rfl⟩
  intro ms k s h
  rcases strProvenance ms [] k s h with hL | hR
  · exact hL
  · simp [jsonLookup] at hR

/-- Witness for C10: the quoted Key text is only recoverable in
sanitized form. -/
theorem c10_decoder_sanitizes_every_string_witness :
    ∃ s₀, ("key", JVal.str s₀) ∈ [("key", JVal.str "\"v\"")]
      ∧ "v" = sanitizeETag (unescapeXml s₀) :=
  c10_decoder_sanitizes_every_string.2.1 [("key", JVal.str "\"v\"")] "key" "v" rfl
